import Mathlib

/-!
Verification of the audio-reactive avatar controller (`GdmLiveAudioAvatar`).

This file gives a shallow embedding of the controller logic of the avatar
component: the loudness extractor (`pullLevel`), the morph blender
(`applyMorph` / `lerpMorph`), the blink scheduler
(`scheduleNextBlink` / `doBlink`), the mode transition entry points
(`startSpeaking` / `startWhisper` / `startDance` / `stopDance` / `goIdle`)
and the per-mode animation policy of the `animate` frame loop.

Numeric conventions: audio levels, morph influences and blink bookkeeping
are modelled over `ℚ` (the source's float arithmetic, idealised to exact
arithmetic); the wall-clock-driven sinusoidal pose channels of the dance
and idle cases are modelled over `ℝ` because they use `Math.sin`.
Timestamps (`performance.now()`) are in milliseconds, frame deltas
(`clock.getDelta()`) in seconds, exactly as in the source.
-/

namespace ThreeMath

/-- `THREE.MathUtils.clamp(value, min, max)` = `Math.max(min, Math.min(max, value))`. -/
def clamp (value lo hi : ℚ) : ℚ := max lo (min hi value)

/-- `THREE.MathUtils.lerp(x, y, t)` = `(1 - t) * x + t * y`. -/
def lerp (x y t : ℚ) : ℚ := (1 - t) * x + t * y

theorem clamp_nonneg (value hi : ℚ) : 0 ≤ clamp value 0 hi := le_max_left 0 _

theorem clamp_le_hi (value hi : ℚ) (h : 0 ≤ hi) : clamp value 0 hi ≤ hi :=
  max_le h (min_le_left hi value)

/-- Clamping to `[0,1]` is the identity on values already in a subinterval. -/
theorem clamp01_of_mem (y : ℚ) (h0 : 0 ≤ y) (h1 : y ≤ 1) : clamp y 0 1 = y := by
  unfold clamp
  rw [min_eq_right h1, max_eq_right h0]

/-- Re-clamping an already clamped value to the wider `[0,1]` changes nothing. -/
theorem clamp01_clamp (x hi : ℚ) (h0 : 0 ≤ hi) (h1 : hi ≤ 1) :
    clamp (clamp x 0 hi) 0 1 = clamp x 0 hi :=
  clamp01_of_mem _ (clamp_nonneg _ _) (le_trans (clamp_le_hi _ _ h0) h1)

end ThreeMath

namespace Avatar

open ThreeMath

/-!
## Loudness extractor

`pullLevel(an, prev, alpha = 0.35)`:
```
if (!an) return prev * 0.95;
an.update();
const data = an.data;
if (!data || !data.length) return prev * 0.95;
let sum = 0;
for (let i = 0; i < data.length; i++) sum += data[i];
const v = (sum / (data.length * 255));
return prev * (1 - alpha) + v * alpha;
```
A snapshot is a `Uint8Array` of frequency-bin magnitudes; `none` models
both an absent analyser and a null/absent data array.
-/

def pullLevel (an : Option (List ℕ)) (prev alpha : ℚ) : ℚ :=
  match an with
  | none => prev * (95 / 100)
  | some data =>
      if data.length = 0 then prev * (95 / 100)
      else prev * (1 - alpha) + ((data.sum : ℚ) / ((data.length : ℚ) * 255)) * alpha

/-!
## Morph blender

A mesh that passes the source's guard
`child.isMesh && child.morphTargetDictionary && child.morphTargetInfluences`
is modelled by its morph-target dictionary (name to index) and its
influence array (index to weight).  The avatar is the list of such meshes
reached by `this.avatar.traverse`; `none` models `this.avatar` not yet
loaded (`if (!this.avatar) return;`).
-/

structure Mesh where
  morphTargetDictionary : String → Option ℕ
  morphTargetInfluences : ℕ → ℚ

/-- `applyMorph(name, value)` on one mesh:
`influences[idx] = THREE.MathUtils.clamp(value, 0, 1)` when the
dictionary has `name`, otherwise leave the mesh untouched. -/
def applyMorphMesh (name : String) (value : ℚ) (m : Mesh) : Mesh :=
  match m.morphTargetDictionary name with
  | none => m
  | some idx =>
      { m with morphTargetInfluences :=
          Function.update m.morphTargetInfluences idx (clamp value 0 1) }

/-- `applyMorph(name, value)`: traverse every mesh of the avatar. -/
def applyMorph (name : String) (value : ℚ) (avatar : Option (List Mesh)) :
    Option (List Mesh) :=
  match avatar with
  | none => none
  | some ms => some (ms.map (applyMorphMesh name value))

/-- `lerpMorph(name, to, rate = 0.15)` on one mesh:
`cur = influences[idx] || 0` (the `|| 0` only rewrites absent entries,
which a total influence function does not have), then
`influences[idx] = lerp(cur, clamp(to, 0, 1), rate)`. -/
def lerpMorphMesh (name : String) (tgt rate : ℚ) (m : Mesh) : Mesh :=
  match m.morphTargetDictionary name with
  | none => m
  | some idx =>
      let cur := m.morphTargetInfluences idx
      { m with morphTargetInfluences :=
          Function.update m.morphTargetInfluences idx (lerp cur (clamp tgt 0 1) rate) }

/-- `lerpMorph(name, to, rate)`: traverse every mesh of the avatar. -/
def lerpMorph (name : String) (tgt rate : ℚ) (avatar : Option (List Mesh)) :
    Option (List Mesh) :=
  match avatar with
  | none => none
  | some ms => some (ms.map (lerpMorphMesh name tgt rate))

/-- Influence `j` of the first mesh of the avatar (test accessor). -/
def morphAt (avatar : Option (List Mesh)) (j : ℕ) : ℚ :=
  match avatar with
  | some (m :: _) => m.morphTargetInfluences j
  | _ => 0

/-!
## Per-frame morph pipeline of `animate` for the speak and whisper cases

Every frame first issues the baseline reset
`this.lerpMorph('mouthSmile', 0, 0.12)`, then the mode switch runs.
-/

/-- Morph writes of one `animate` frame in speak mode:
```
this.lerpMorph('mouthSmile', 0, 0.12);
const mouth = THREE.MathUtils.clamp(this.outLevel * 3.0, 0, 1);
this.applyMorph('mouthOpen', mouth);
this.lerpMorph('mouthSmile', mouth);          // default rate 0.15
```
-/
def animateSpeakMorphs (outLevel : ℚ) (avatar : Option (List Mesh)) :
    Option (List Mesh) :=
  let a1 := lerpMorph "mouthSmile" 0 (12 / 100) avatar
  let mouth := clamp (outLevel * 3) 0 1
  let a2 := applyMorph "mouthOpen" mouth a1
  lerpMorph "mouthSmile" mouth (15 / 100) a2

/-- Morph writes of one `animate` frame in whisper mode:
```
this.lerpMorph('mouthSmile', 0, 0.12);
const mouth = THREE.MathUtils.clamp(this.outLevel * 1.2, 0, 0.4);
this.applyMorph('mouthOpen', mouth);
this.lerpMorph('mouthSmile', 0.15, 0.08);
```
-/
def animateWhisperMorphs (outLevel : ℚ) (avatar : Option (List Mesh)) :
    Option (List Mesh) :=
  let a1 := lerpMorph "mouthSmile" 0 (12 / 100) avatar
  let mouth := clamp (outLevel * (12 / 10)) 0 (4 / 10)
  let a2 := applyMorph "mouthOpen" mouth a1
  lerpMorph "mouthSmile" (15 / 100) (8 / 100) a2

/-- A one-mesh test rig carrying the `mouthOpen` (index 0) and
`mouthSmile` (index 1) morph channels, with initial influences `o` and `s`. -/
def testRig (o s : ℚ) : List Mesh :=
  [{ morphTargetDictionary := fun n =>
       if n = "mouthOpen" then some 0 else if n = "mouthSmile" then some 1 else none
     morphTargetInfluences := fun j => if j = 0 then o else if j = 1 then s else 0 }]

/-- C3: for a non-empty magnitude buffer the new level is
`prev·(1−0.35) + (mean/255)·0.35`; for an absent analyser or an empty
buffer it is `prev × 0.95`, hence after `N` consecutive empty updates the
level is the initial level times `0.95^N`; `pullLevel` is total, so no
error is raised. -/
theorem pullLevel_ema_and_decay (b : ℕ) (bs : List ℕ) (p : ℚ) (N : ℕ) :
    pullLevel (some (b :: bs)) p (35 / 100)
        = p * (1 - 35 / 100) + ((((b :: bs).sum : ℚ) / ((b :: bs).length : ℚ)) / 255) * (35 / 100)
      ∧ pullLevel none p (35 / 100) = p * (95 / 100)
      ∧ pullLevel (some []) p (35 / 100) = p * (95 / 100)
      ∧ (fun q => pullLevel none q (35 / 100))^[N] p = p * (95 / 100) ^ N := by
  refine ⟨?_, rfl, by simp [pullLevel], ?_⟩
  · simp only [pullLevel, List.length_cons, Nat.succ_ne_zero, if_false, div_div]
  · induction N with
    | zero => simp
    | succ n ih =>
        rw [Function.iterate_succ_apply', ih]
        simp only [pullLevel]
        ring

/-- One `pullLevel` update keeps the level inside `[0,1]` when the
magnitudes are bytes. -/
theorem pullLevel_step_unit (an : Option (List ℕ)) (p : ℚ)
    (h0 : 0 ≤ p) (h1 : p ≤ 1) (hb : ∀ x ∈ an.getD [], x ≤ 255) :
    0 ≤ pullLevel an p (35 / 100) ∧ pullLevel an p (35 / 100) ≤ 1 := by
  match an with
  | none =>
      constructor
      · unfold pullLevel; positivity
      · show p * (95 / 100) ≤ 1
        nlinarith
  | some data =>
      by_cases hlen : data.length = 0
      · constructor
        · simp only [pullLevel, hlen, if_true]; positivity
        · simp only [pullLevel, hlen, if_true]; nlinarith
      · have hlpos : (0 : ℚ) < (data.length : ℚ) * 255 := by
          have : 0 < data.length := Nat.pos_of_ne_zero hlen
          positivity
        have hsum : (data.sum : ℚ) ≤ (data.length : ℚ) * 255 := by
          have hn : data.sum ≤ data.length * 255 := by
            calc data.sum ≤ data.length • 255 :=
                  List.sum_le_card_nsmul data 255 (by simpa using hb)
              _ = data.length * 255 := by simp [smul_eq_mul]
          exact_mod_cast hn
        have hv0 : (0 : ℚ) ≤ (data.sum : ℚ) / ((data.length : ℚ) * 255) := by positivity
        have hv1 : (data.sum : ℚ) / ((data.length : ℚ) * 255) ≤ 1 :=
          (div_le_one hlpos).mpr hsum
        constructor
        · simp only [pullLevel, hlen, if_false]
          nlinarith
        · simp only [pullLevel, hlen, if_false]
          nlinarith

/-- C4: for every initial level in `[0,1]` and every sequence of magnitude
snapshots (absent and empty ones included), the smoothed level stays in
`[0,1]` after every update step. -/
theorem level_stays_in_unit_interval (p : ℚ) (snaps : List (Option (List ℕ)))
    (h0 : 0 ≤ p) (h1 : p ≤ 1)
    (hb : ∀ an ∈ snaps, ∀ x ∈ an.getD [], x ≤ 255) :
    0 ≤ snaps.foldl (fun q an => pullLevel an q (35 / 100)) p
      ∧ snaps.foldl (fun q an => pullLevel an q (35 / 100)) p ≤ 1 := by
  induction snaps generalizing p with
  | nil => exact ⟨h0, h1⟩
  | cons a t ih =>
      simp only [List.foldl_cons]
      have hstep := pullLevel_step_unit a p h0 h1 (hb a (by simp))
      exact ih (pullLevel a p (35 / 100)) hstep.1 hstep.2
        (fun an han => hb an (by simp [han]))

theorem level_stays_in_unit_interval_witness :
    0 ≤ (1 : ℚ) ∧ (1 : ℚ) ≤ 1
      ∧ (∀ an ∈ [some [100, 0], none, some ([] : List ℕ)], ∀ x ∈ an.getD [], x ≤ 255)
      ∧ (0 ≤ [some [100, 0], none, some ([] : List ℕ)].foldl
              (fun q an => pullLevel an q (35 / 100)) 1
         ∧ [some [100, 0], none, some ([] : List ℕ)].foldl
              (fun q an => pullLevel an q (35 / 100)) 1 ≤ 1) :=
  ⟨by simp, by simp, by decide,
    level_stays_in_unit_interval 1 [some [100, 0], none, some []]
      (by simp) (by simp) (by decide)⟩

/-- C2: in speak mode with smoothed output level `L`, the frame writes
`clamp(L × 3.0, 0, 1)` to `mouthOpen` directly (independent of the prior
value `o`), while `mouthSmile` is rate-limited-lerped toward the same
clamped value (through the frame's baseline reset at rate 0.12 and the
speak lerp at default rate 0.15); with `L = 0.5` and prior
`mouthOpen = 0`, `mouthOpen` becomes exactly `1` in one frame while
`mouthSmile` only reaches `3/20`, strictly between `0` and `1`. -/
theorem speak_mouth_direct_smile_partway (L o s : ℚ) :
    morphAt (animateSpeakMorphs L (some (testRig o s))) 0 = clamp (L * 3) 0 1
      ∧ morphAt (animateSpeakMorphs L (some (testRig o s))) 1
          = lerp (lerp s 0 (12 / 100)) (clamp (L * 3) 0 1) (15 / 100)
      ∧ morphAt (animateSpeakMorphs (1 / 2) (some (testRig 0 0))) 0 = 1
      ∧ morphAt (animateSpeakMorphs (1 / 2) (some (testRig 0 0))) 1 = 3 / 20
      ∧ (0 : ℚ) < 3 / 20 ∧ (3 / 20 : ℚ) < 1 := by
  have hidem : clamp (clamp (L * 3) 0 1) 0 1 = clamp (L * 3) 0 1 :=
    clamp01_clamp _ _ (by norm_num) (by norm_num)
  have hz : clamp (0 : ℚ) 0 1 = 0 := by norm_num [clamp]
  refine ⟨?_, ?_, ?_, ?_, by norm_num, by norm_num⟩
  · simp [animateSpeakMorphs, lerpMorph, applyMorph, lerpMorphMesh, applyMorphMesh,
      testRig, morphAt, Function.update_apply, hidem]
  · simp [animateSpeakMorphs, lerpMorph, applyMorph, lerpMorphMesh, applyMorphMesh,
      testRig, morphAt, Function.update_apply, hidem, hz]
  · simp [animateSpeakMorphs, lerpMorph, applyMorph, lerpMorphMesh, applyMorphMesh,
      testRig, morphAt, Function.update_apply]
    norm_num [clamp]
  · simp [animateSpeakMorphs, lerpMorph, applyMorph, lerpMorphMesh, applyMorphMesh,
      testRig, morphAt, Function.update_apply, hz]
    norm_num [clamp, lerp]

/-- C5: in whisper mode the frame writes `clamp(L × 1.2, 0, 0.4)` to
`mouthOpen` (so `L = 1` yields exactly `0.4`), while the `mouthSmile`
write lerps toward the fixed constant `0.15` at rate 0.08 (after the
frame's baseline reset), independent of `L`. -/
theorem whisper_mouth_cap (L o s : ℚ) :
    morphAt (animateWhisperMorphs L (some (testRig o s))) 0 = clamp (L * (12 / 10)) 0 (4 / 10)
      ∧ morphAt (animateWhisperMorphs 1 (some (testRig o s))) 0 = 4 / 10
      ∧ morphAt (animateWhisperMorphs L (some (testRig o s))) 1
          = lerp (lerp s 0 (12 / 100)) (15 / 100) (8 / 100) := by
  have hidem : clamp (clamp (L * (12 / 10)) 0 (4 / 10)) 0 1 = clamp (L * (12 / 10)) 0 (4 / 10) :=
    clamp01_clamp _ _ (by norm_num) (by norm_num)
  have hz : clamp (0 : ℚ) 0 1 = 0 := by norm_num [clamp]
  have hsm : clamp ((15 / 100 : ℚ)) 0 1 = 15 / 100 := by norm_num [clamp]
  refine ⟨?_, ?_, ?_⟩
  · simp [animateWhisperMorphs, lerpMorph, applyMorph, lerpMorphMesh, applyMorphMesh,
      testRig, morphAt, Function.update_apply, hidem]
  · simp [animateWhisperMorphs, lerpMorph, applyMorph, lerpMorphMesh, applyMorphMesh,
      testRig, morphAt, Function.update_apply]
    norm_num [clamp]
  · simp [animateWhisperMorphs, lerpMorph, applyMorph, lerpMorphMesh, applyMorphMesh,
      testRig, morphAt, Function.update_apply, hsm, hz]

/-!
## Blink scheduler

```
private scheduleNextBlink() {
  this.nextBlinkAt = performance.now() + 2000 + Math.random() * 4000;
}
private doBlink(dt: number) {
  const now = performance.now();
  if (now >= this.nextBlinkAt && this.blinkT <= 0) {
    this.blinkT = 1.0;
    this.scheduleNextBlink();
  }
  if (this.blinkT > 0) {
    this.blinkT -= dt * 6;
    const phase = 1 - Math.abs(1 - Math.max(this.blinkT, 0) * 2);
    this.applyMorph('eyeBlinkLeft', phase); ...
  }
}
```
`r` stands for the sampled `Math.random() * 4000`, a value in `[0, 4000)`.
The returned `Option ℚ` is the envelope value written to the eyelid
channels this frame (`none` when no blink is active).
-/

structure BlinkSt where
  nextBlinkAt : ℚ
  blinkT : ℚ

def scheduleNextBlink (now r : ℚ) : ℚ := now + 2000 + r

def blinkFired (now : ℚ) (s : BlinkSt) : Prop := s.nextBlinkAt ≤ now ∧ s.blinkT ≤ 0

instance blinkFiredDec (now : ℚ) (s : BlinkSt) : Decidable (blinkFired now s) :=
  inferInstanceAs (Decidable (_ ∧ _))

def doBlink (now dt r : ℚ) (s : BlinkSt) : BlinkSt × Option ℚ :=
  let s1 := if blinkFired now s then { nextBlinkAt := scheduleNextBlink now r, blinkT := 1 } else s
  if 0 < s1.blinkT then
    ({ s1 with blinkT := s1.blinkT - dt * 6 }, some (1 - |1 - max (s1.blinkT - dt * 6) 0 * 2|))
  else (s1, none)

/-- The firing times of a run of `doBlink` over a list of frames
`(now, dt, r)`: the frames whose fire condition
`now >= nextBlinkAt && blinkT <= 0` holds. -/
def blinkFirings : List (ℚ × ℚ × ℚ) → BlinkSt → List ℚ
  | [], _ => []
  | (now, dt, r) :: fs, s =>
      if blinkFired now s then now :: blinkFirings fs (doBlink now dt r s).1
      else blinkFirings fs (doBlink now dt r s).1

/-- C6: during an active blink (progress `p` with `0 < p ≤ 1`), the frame
decrements the progress by `dt × 6` and emits the triangular envelope
`1 − |1 − 2·max(progress, 0)|`, which is non-negative, is exactly `1` at
the midpoint `progress = 0.5`, and is exactly `0` once the decremented
progress reaches `≤ 0`, at which point the state is Waiting again
(`blinkT ≤ 0`, so the active branch no longer runs and the fire condition
is re-armed). -/
theorem blink_envelope_triangular (now dt r p : ℚ) (s : BlinkSt)
    (hp0 : 0 < p) (hp1 : p ≤ 1) (hdt : 0 ≤ dt) (hs : s.blinkT = p) :
    (doBlink now dt r s).2 = some (1 - |1 - max (p - dt * 6) 0 * 2|)
      ∧ 0 ≤ 1 - |1 - max (p - dt * 6) 0 * 2|
      ∧ (p - dt * 6 = 1 / 2 → (doBlink now dt r s).2 = some 1)
      ∧ (p - dt * 6 ≤ 0 → (doBlink now dt r s).2 = some 0 ∧ (doBlink now dt r s).1.blinkT ≤ 0)
      ∧ (doBlink now dt r s).1.blinkT = p - dt * 6 := by
  have hnf : ¬ blinkFired now s := fun hf => absurd hf.2 (by rw [hs]; exact not_le.mpr hp0)
  have hpos : 0 < s.blinkT := by rw [hs]; exact hp0
  have hout : (doBlink now dt r s).2 = some (1 - |1 - max (p - dt * 6) 0 * 2|) := by
    simp only [doBlink, if_neg hnf, hs, if_pos hp0]
  have hst : (doBlink now dt r s).1.blinkT = p - dt * 6 := by
    simp only [doBlink, if_neg hnf, hs, if_pos hp0]
  refine ⟨hout, ?_, ?_, ?_, hst⟩
  · have hm0 : (0 : ℚ) ≤ max (p - dt * 6) 0 := le_max_right _ _
    have hm1 : max (p - dt * 6) 0 ≤ 1 := max_le (by linarith) (by norm_num)
    have : |1 - max (p - dt * 6) 0 * 2| ≤ 1 := abs_le.mpr ⟨by linarith, by linarith⟩
    linarith
  · intro hmid
    rw [hout, hmid]
    norm_num
  · intro hend
    refine ⟨?_, by rw [hst]; exact hend⟩
    rw [hout, max_eq_right hend]
    norm_num

theorem blink_envelope_triangular_witness :
    0 < (1 : ℚ) ∧ (1 : ℚ) ≤ 1 ∧ 0 ≤ (1 / 12 : ℚ) ∧ (BlinkSt.mk 5000 1).blinkT = 1
      ∧ ((doBlink 0 (1 / 12) 0 (BlinkSt.mk 5000 1)).2
            = some (1 - |1 - max ((1 : ℚ) - 1 / 12 * 6) 0 * 2|)
          ∧ 0 ≤ 1 - |1 - max ((1 : ℚ) - 1 / 12 * 6) 0 * 2|
          ∧ ((1 : ℚ) - 1 / 12 * 6 = 1 / 2 → (doBlink 0 (1 / 12) 0 (BlinkSt.mk 5000 1)).2 = some 1)
          ∧ ((1 : ℚ) - 1 / 12 * 6 ≤ 0 →
              (doBlink 0 (1 / 12) 0 (BlinkSt.mk 5000 1)).2 = some 0
                ∧ (doBlink 0 (1 / 12) 0 (BlinkSt.mk 5000 1)).1.blinkT ≤ 0)
          ∧ (doBlink 0 (1 / 12) 0 (BlinkSt.mk 5000 1)).1.blinkT = (1 : ℚ) - 1 / 12 * 6) :=
  ⟨by simp, by simp, by simp, rfl,
    blink_envelope_triangular 0 (1 / 12) 0 1 (BlinkSt.mk 5000 1)
      (by simp) (by simp) (by simp) rfl⟩

/-- When the fire condition holds, the frame starts a blink and
immediately reschedules: afterwards `nextBlinkAt = now + 2000 + r`. -/
theorem doBlink_fired_nextBlinkAt (now dt r : ℚ) (s : BlinkSt) (h : blinkFired now s) :
    (doBlink now dt r s).1.nextBlinkAt = now + 2000 + r
      ∧ (doBlink now dt r s).1.blinkT = 1 - dt * 6 := by
  constructor <;> simp [doBlink, if_pos h, scheduleNextBlink]

/-- When the fire condition does not hold, `nextBlinkAt` is unchanged. -/
theorem doBlink_not_fired_nextBlinkAt (now dt r : ℚ) (s : BlinkSt) (h : ¬ blinkFired now s) :
    (doBlink now dt r s).1.nextBlinkAt = s.nextBlinkAt := by
  simp only [doBlink, if_neg h]
  split <;> rfl

/-- Along any run whose random draws are non-negative, every firing time
is at least the pending `nextBlinkAt`, and consecutive firing times are
at least 2000 ms apart. -/
theorem blinkFirings_spaced (fs : List (ℚ × ℚ × ℚ)) (s : BlinkSt)
    (hr : ∀ f ∈ fs, 0 ≤ f.2.2) :
    (∀ T ∈ (blinkFirings fs s).head?, s.nextBlinkAt ≤ T)
      ∧ List.Chain' (fun a b => a + 2000 ≤ b) (blinkFirings fs s) := by
  induction fs generalizing s with
  | nil => simp [blinkFirings]
  | cons f fs ih =>
      obtain ⟨now, dt, r⟩ := f
      have hr0 : (0 : ℚ) ≤ r := hr (now, dt, r) (by simp)
      have hrt : ∀ g ∈ fs, (0 : ℚ) ≤ g.2.2 := fun g hg => hr g (by simp [hg])
      by_cases hf : blinkFired now s
      · have hsched := (doBlink_fired_nextBlinkAt now dt r s hf).1
        have ihs := ih (doBlink now dt r s).1 hrt
        refine ⟨?_, ?_⟩
        · intro T hT
          simp only [blinkFirings, if_pos hf, List.head?_cons, Option.mem_def,
            Option.some_inj] at hT
          exact hT ▸ hf.1
        · rw [blinkFirings, if_pos hf]
          refine List.chain'_cons'.mpr ⟨?_, ihs.2⟩
          intro b hb
          have := ihs.1 b hb
          rw [hsched] at this
          linarith
      · have hkeep := doBlink_not_fired_nextBlinkAt now dt r s hf
        have ihs := ih (doBlink now dt r s).1 hrt
        rw [blinkFirings, if_neg hf]
        refine ⟨?_, ihs.2⟩
        intro T hT
        have := ihs.1 T hT
        rw [hkeep] at this
        exact this

/-- C7 (amended): two consecutive blink firings are never less than
2000 ms apart, and each firing immediately reschedules `nextBlinkAt` to a
value 2000–6000 ms ahead (`2000 + r` with `r = random()·4000 ∈ [0, 4000)`).
The 6000 ms bound on the gap between firings, and the claim that a blink
in progress never blocks the schedule, do not hold (see the
counterexample): firing additionally requires `blinkT ≤ 0`, and a frame
must actually occur. -/
theorem blink_min_gap_and_reschedule (fs : List (ℚ × ℚ × ℚ)) (s : BlinkSt)
    (hr : ∀ f ∈ fs, 0 ≤ f.2.2) :
    List.Chain' (fun a b => a + 2000 ≤ b) (blinkFirings fs s)
      ∧ ∀ now dt r : ℚ, ∀ s' : BlinkSt, blinkFired now s' → 0 ≤ r → r < 4000 →
          now + 2000 ≤ (doBlink now dt r s').1.nextBlinkAt
            ∧ (doBlink now dt r s').1.nextBlinkAt < now + 6000 := by
  refine ⟨(blinkFirings_spaced fs s hr).2, ?_⟩
  intro now dt r s' hf hr0 hr4
  rw [(doBlink_fired_nextBlinkAt now dt r s' hf).1]
  constructor <;> linarith

/-- The three-frame run used to refute the 6000 ms upper bound of C7. -/
def cexFrames : List (ℚ × ℚ × ℚ) :=
  [(2000, 16 / 1000, 0), (12000, 10, 0), (12016, 16 / 1000, 0)]

/-- Initial blink state right after `scheduleNextBlink` at load time 0
with random draw 0: the first blink is due at 2000 ms. -/
def cexBlink0 : BlinkSt := BlinkSt.mk 2000 0

/-- C7 counterexample: on the concrete run `cexFrames` the scheduler
fires at 2000 ms and then not again until 12016 ms — a gap of 10016 ms,
greater than 6000 ms — because the frame at 12000 ms satisfies
`now ≥ nextBlinkAt` but is blocked by the still-positive blink progress,
refuting both the 6000 ms upper bound and "a blink in progress never
blocks that schedule". -/
theorem blink_gap_can_exceed_6000 :
    blinkFirings cexFrames cexBlink0 = [2000, 12016]
      ∧ ¬ ((12016 : ℚ) - 2000 ≤ 6000) := by
  constructor
  · norm_num [cexFrames, cexBlink0, blinkFirings, doBlink, blinkFired, scheduleNextBlink]
  · norm_num

theorem blink_min_gap_and_reschedule_witness :
    (∀ f ∈ cexFrames, 0 ≤ f.2.2)
      ∧ (List.Chain' (fun a b => a + 2000 ≤ b) (blinkFirings cexFrames cexBlink0)
          ∧ ∀ now dt r : ℚ, ∀ s' : BlinkSt, blinkFired now s' → 0 ≤ r → r < 4000 →
              now + 2000 ≤ (doBlink now dt r s').1.nextBlinkAt
                ∧ (doBlink now dt r s').1.nextBlinkAt < now + 6000) :=
  ⟨by simp [cexFrames],
    blink_min_gap_and_reschedule cexFrames cexBlink0 (by simp [cexFrames])⟩

/-- C8: the tick does not clamp non-positive delta times: `animate` feeds
`clock.getDelta()` straight into `doBlink`, so `dt = −0.016` reaches the
blink-progress update unclamped and an active blink's progress increases
from `1/2` to `1/2 + 0.096` (the blink runs backwards) instead of
decreasing as it would after any clamp to a positive epsilon. -/
theorem negative_dt_propagates :
    (doBlink 0 (-(16 / 1000)) 0 (BlinkSt.mk 5000 (1 / 2))).1.blinkT = 1 / 2 + 96 / 1000
      ∧ (1 / 2 : ℚ) < (doBlink 0 (-(16 / 1000)) 0 (BlinkSt.mk 5000 (1 / 2))).1.blinkT
      ∧ (doBlink 0 0 0 (BlinkSt.mk 5000 (1 / 2))).1.blinkT = 1 / 2 := by
  refine ⟨?_, ?_, ?_⟩ <;>
    norm_num [doBlink, blinkFired, scheduleNextBlink]

/-!
## Modes and public controls

```
type AvatarMode = 'idle' | 'speak' | 'whisper' | 'dance';
startSpeaking()  { this._mode = 'speak'; }
startWhisper()   { this._mode = 'whisper'; }
startDance()     { this._mode = 'dance'; this.isDancing = true; }
stopDance()      { this.isDancing = false; if (this._mode === 'dance') this._mode = 'idle'; }
goIdle()         { this._mode = 'idle'; this.isDancing = false; }
```
`dancePhase` is the component field `private dancePhase = 0`; none of the
five entry points touches it.
-/

inductive Mode
  | idle
  | speak
  | whisper
  | dance
deriving DecidableEq

structure CtrlState where
  mode : Mode
  isDancing : Bool
  dancePhase : ℝ

def startSpeaking (c : CtrlState) : CtrlState := { c with mode := Mode.speak }

def startWhisper (c : CtrlState) : CtrlState := { c with mode := Mode.whisper }

def startDance (c : CtrlState) : CtrlState := { c with mode := Mode.dance, isDancing := true }

def stopDance (c : CtrlState) : CtrlState :=
  let c1 := { c with isDancing := false }
  if c1.mode = Mode.dance then { c1 with mode := Mode.idle } else c1

def goIdle (c : CtrlState) : CtrlState := { c with mode := Mode.idle, isDancing := false }

/-- C10: `stopDance()` always clears the dancing flag and moves the mode
to idle exactly when the current mode is dance (any other mode is left
unchanged), while `goIdle()` sets the mode to idle and clears the dancing
flag from any mode. -/
theorem stop_dance_go_idle_modes (c : CtrlState) :
    (stopDance c).isDancing = false
      ∧ (stopDance c).mode = (if c.mode = Mode.dance then Mode.idle else c.mode)
      ∧ (goIdle c).mode = Mode.idle
      ∧ (goIdle c).isDancing = false := by
  refine ⟨?_, ?_, rfl, rfl⟩ <;>
    · unfold stopDance
      by_cases h : c.mode = Mode.dance <;> simp [h]

/-!
## The dance case of `animate`

```
case 'dance': {
  this.isDancing = true;
  const t = performance.now() * 0.001;
  this.dancePhase += dt;
  if (this.avatar) {
    this.avatar.position.y = Math.sin(t * 4) * 0.05 + 0.02;
    this.avatar.rotation.y = Math.sin(t * 2) * 0.25;
    this.avatar.rotation.z = Math.sin(t * 3.2) * 0.07;
  }
  ...
}
```
The sinusoids read `t`, the wall clock; `dancePhase` is written but never
read.  The `switch` updates `dancePhase` in no other case.
-/

structure DanceFrame where
  posY : ℝ
  rotY : ℝ
  rotZ : ℝ
  dancePhase : ℝ

noncomputable def danceCase (now dt phase : ℝ) : DanceFrame :=
  { posY := Real.sin (now * 0.001 * 4) * 0.05 + 0.02
    rotY := Real.sin (now * 0.001 * 2) * 0.25
    rotZ := Real.sin (now * 0.001 * 3.2) * 0.07
    dancePhase := phase + dt }

/-- The `dancePhase` update of the `animate` mode switch:
`this.dancePhase += dt` appears only in the dance case. -/
noncomputable def framePhase (m : Mode) (dt phase : ℝ) : ℝ :=
  match m with
  | Mode.dance => phase + dt
  | _ => phase

/-- C1 counterexample: the avatar's dance position-Y is not a function of
the dance-phase accumulator.  Two dance frames with the same accumulator
value 0 — one at wall clock 0, one at wall clock 125π ms — produce
position-Y 0.02 and 0.07 respectively. -/
theorem dance_posY_not_function_of_phase :
    ¬ ∃ f : ℝ → ℝ, ∀ now dt phase : ℝ,
        (danceCase now dt phase).posY = f ((danceCase now dt phase).dancePhase) := by
  rintro ⟨f, hf⟩
  have h1 := hf 0 0 0
  have h2 := hf (125 * Real.pi) 0 0
  have e1 : (danceCase 0 0 0).posY = 0.02 := by
    simp [danceCase]
  have e2 : (danceCase (125 * Real.pi) 0 0).posY = 0.07 := by
    have harg : 125 * Real.pi * 0.001 * 4 = Real.pi / 2 := by ring_nf
    show Real.sin (125 * Real.pi * 0.001 * 4) * 0.05 + 0.02 = 0.07
    rw [harg, Real.sin_pi_div_two]
    norm_num
  have hph1 : (danceCase 0 0 0).dancePhase = 0 := by simp [danceCase]
  have hph2 : (danceCase (125 * Real.pi) 0 0).dancePhase = 0 := by simp [danceCase]
  rw [e1, hph1] at h1
  rw [e2, hph2] at h2
  rw [← h1] at h2
  norm_num at h2

/-- C1 (amended): the dance-case position-Y and rotation-Y/Z are
sinusoids of the wall clock `t = performance.now() × 0.001` (not of the
dance-phase accumulator); the accumulator advances by `dt` in the dance
case only, is left unchanged by the idle, speak and whisper cases, and is
preserved by `stopDance()` and `startDance()`, so stopping and restarting
the dance after any delay resumes the accumulation exactly where it
stopped, with zero jump. -/
theorem dance_wall_clock_and_phase_continuity (now dt phase : ℝ) (c : CtrlState) :
    (danceCase now dt phase).posY = Real.sin (now * 0.001 * 4) * 0.05 + 0.02
      ∧ (danceCase now dt phase).rotY = Real.sin (now * 0.001 * 2) * 0.25
      ∧ (danceCase now dt phase).rotZ = Real.sin (now * 0.001 * 3.2) * 0.07
      ∧ (danceCase now dt phase).dancePhase = phase + dt
      ∧ framePhase Mode.dance dt phase = phase + dt
      ∧ framePhase Mode.idle dt phase = phase
      ∧ framePhase Mode.speak dt phase = phase
      ∧ framePhase Mode.whisper dt phase = phase
      ∧ (stopDance c).dancePhase = c.dancePhase
      ∧ (startDance c).dancePhase = c.dancePhase
      ∧ (startDance (stopDance c)).dancePhase = c.dancePhase := by
  refine ⟨rfl, rfl, rfl, rfl, rfl, rfl, rfl, rfl, ?_, rfl, ?_⟩ <;>
    · simp only [stopDance, startDance]
      by_cases h : c.mode = Mode.dance <;> simp [h]

/-- C9: writing to a morph-channel name that is absent from every mesh's
morph-target dictionary is a silent no-op for both the direct write
(`applyMorph`) and the rate-limited write (`lerpMorph`): the avatar state
is returned unchanged, so every other channel and every subsequent frame
is unaffected, and both functions are total, so nothing is raised. -/
theorem missing_morph_channel_noop (name : String) (value tgt rate : ℚ) (ms : List Mesh)
    (h : ∀ m ∈ ms, m.morphTargetDictionary name = none) :
    applyMorph name value (some ms) = some ms
      ∧ lerpMorph name tgt rate (some ms) = some ms := by
  constructor
  · simp only [applyMorph, Option.some_inj]
    induction ms with
    | nil => rfl
    | cons a t ih =>
        have ha : applyMorphMesh name value a = a := by
          simp [applyMorphMesh, h a (by simp)]
        simp [ha, ih (fun m hm => h m (by simp [hm]))]
  · simp only [lerpMorph, Option.some_inj]
    induction ms with
    | nil => rfl
    | cons a t ih =>
        have ha : lerpMorphMesh name tgt rate a = a := by
          simp [lerpMorphMesh, h a (by simp)]
        simp [ha, ih (fun m hm => h m (by simp [hm]))]

theorem missing_morph_channel_noop_witness :
    (∀ m ∈ testRig 0 0, m.morphTargetDictionary "mouthFrown" = none)
      ∧ (applyMorph "mouthFrown" 1 (some (testRig 0 0)) = some (testRig 0 0)
          ∧ lerpMorph "mouthFrown" (1 / 2) (15 / 100) (some (testRig 0 0)) = some (testRig 0 0)) :=
  ⟨by simp [testRig],
    missing_morph_channel_noop "mouthFrown" 1 (1 / 2) (15 / 100) (testRig 0 0)
      (by simp [testRig])⟩

end Avatar
